import Mathlib

/-!
Shallow embedding of the extrinsic submission and history-tracking subsystem
of the sora2-substrate SDK (`BaseApi`): the history store (`saveHistory`, the
`history` getter and setter), the status-stream interpreter that runs inside
`submitExtrinsic`'s `send` callback, the transport-error catch handler, and
the `formatAddress` helper.

External collaborators (the SS58 address codec, HMAC hashing of addresses,
the `encrypt` helper, JSON serialization and the `FPNumber` decimal
formatter) are not part of the embedded source; they are modelled from the
specification's interface descriptions and documented at their definitions.
-/

/-- Modelled from the spec: an SS58 address value, i.e. the encoding of a raw
public key together with a network format.  The codec functions
`decodeAddress`/`encodeAddress` (external `@polkadot/util-crypto`) are, per
the spec, "decode to raw public key, re-encode with or without the
network-specific address prefix". -/
structure Address where
  ss58Format : Nat
  pubkey : Nat
deriving DecidableEq

/-- The codec's default SS58 network format (the generic substrate format). -/
def defaultSS58 : Nat := 42

/-- `protected readonly prefix = 69` of `BaseApi`, the SORA network format. -/
def soraSS58 : Nat := 69

/-- Modelled from the spec: the external `encodeAddress` of the SS58 codec. -/
def encodeAddress (publicKey : Nat) (ss58 : Nat) : Address :=
  { ss58Format := ss58, pubkey := publicKey }

/-- Modelled from the spec: the external `decodeAddress` of the SS58 codec;
on the `Address` model it recovers the raw public key. -/
def decodeAddress (address : Address) : Nat :=
  address.pubkey

/-- `BaseApi.formatAddress` (source lines 612-619): decode to the public key,
re-encode with the SORA format when ` withSoraPrefix` is set, otherwise with
the codec's default format. -/
def formatAddress (address : Address) ( withSoraPrefix : Bool) : Address :=
  let publicKey := decodeAddress address
  if withSoraPrefix then encodeAddress publicKey soraSS58
  else encodeAddress publicKey defaultSS58

/-- The `Operation` enumeration (source lines 665-700). -/
inductive Operation
  | Swap
  | Transfer
  | AddLiquidity
  | RemoveLiquidity
  | CreatePair
  | Faucet
  | RegisterAsset
  | EthBridgeOutgoing
  | EthBridgeIncoming
  | EvmOutgoing
  | EvmIncoming
  | ClaimRewards
  | ClaimVestedRewards
  | ClaimCrowdloanRewards
  | ClaimLiquidityProvisionRewards
  | ClaimExternalRewards
  | TransferAll
  | SwapAndSend
  | ReferralReserveXor
  | ReferralUnreserveXor
  | ReferralSetInvitedUser
  | DemeterFarmingDepositLiquidity
  | DemeterFarmingWithdrawLiquidity
  | DemeterFarmingStakeToken
  | DemeterFarmingUnstakeToken
  | DemeterFarmingGetRewards
  | CeresLiquidityLockerLockLiquidity
deriving DecidableEq

/-- `isBridgeOperation` (source lines 61-62). -/
def isBridgeOperation (operation : Operation) : Bool :=
  decide (operation ∈ [Operation.EthBridgeIncoming, Operation.EthBridgeOutgoing])

/-- `isEvmOperation` (source lines 64-65). -/
def isEvmOperation (operation : Operation) : Bool :=
  decide (operation ∈ [Operation.EvmIncoming, Operation.EvmOutgoing])

/-- `isLiquidityPoolOperation` (source lines 67-68). -/
def isLiquidityPoolOperation (operation : Operation) : Bool :=
  decide (operation ∈ [Operation.AddLiquidity, Operation.RemoveLiquidity])

/-- `history.type` may be absent at runtime (the record starts from
`historyData || {}`); a JS `includes(undefined)` test is `false`. -/
def isLiqType : Option Operation → Bool
  | some t => isLiquidityPoolOperation t
  | none => false

/-- Bridge-operation test lifted to a possibly-absent `type` field. -/
def isBridgeType : Option Operation → Bool
  | some t => isBridgeOperation t
  | none => false

/-- EVM-operation test lifted to a possibly-absent `type` field. -/
def isEvmType : Option Operation → Bool
  | some t => isEvmOperation t
  | none => false

/-- `ErrorMessageFields` (source lines 33-36) or the free-text alternative of
`History.errorMessage` (source line 721). -/
inductive ErrMsg
  | fields (sect : String) (name : String)
  | text (s : String)
deriving DecidableEq

/-- The `History` record (source lines 702-726), restricted to the fields the
embedded operations read or write.  `none` models a JS field that is absent.
The source field `from` is a Lean keyword and is embedded as `fromAddress`;
it holds an address value (an absent or empty-string `from` is `none`). -/
structure HistoryItem where
  txId : Option String := none
  type : Option Operation := none
  amount : Option String := none
  assetAddress : Option String := none
  id : Option String := none
  blockId : Option String := none
  amount2 : Option String := none
  startTime : Option Nat := none
  endTime : Option Nat := none
  fromAddress : Option Address := none
  status : Option String := none
  errorMessage : Option ErrMsg := none
  soraNetworkFee : Option String := none
  hash : Option String := none
deriving DecidableEq

/-- JS object-spread override: a field present on the right operand wins. -/
def ov {α : Type} (incoming old : Option α) : Option α :=
  match incoming with
  | some v => some v
  | none => old

/-- `{ ...old, ...incoming }` on history records (source line 222): a shallow
field merge where the incoming record's present fields override. -/
def mergeItem (old incoming : HistoryItem) : HistoryItem :=
  { txId := ov incoming.txId old.txId
    type := ov incoming.type old.type
    amount := ov incoming.amount old.amount
    assetAddress := ov incoming.assetAddress old.assetAddress
    id := ov incoming.id old.id
    blockId := ov incoming.blockId old.blockId
    amount2 := ov incoming.amount2 old.amount2
    startTime := ov incoming.startTime old.startTime
    endTime := ov incoming.endTime old.endTime
    fromAddress := ov incoming.fromAddress old.fromAddress
    status := ov incoming.status old.status
    errorMessage := ov incoming.errorMessage old.errorMessage
    soraNetworkFee := ov incoming.soraNetworkFee old.soraNetworkFee
    hash := ov incoming.hash old.hash }

/-- `AccountHistory<HistoryItem>` (source lines 57-59): a string-keyed JS
object, embedded as an association list without duplicate-key updates. -/
abbrev AccountHistory := List (String × HistoryItem)

/-- JS object property read `m[k]` on an association list. -/
def alLookup {κ ν : Type} [DecidableEq κ] : List (κ × ν) → κ → Option ν
  | [], _ => none
  | (k', v) :: rest, k => if k' = k then some v else alLookup rest k

/-- JS object property write `m[k] = v`: replace in place, or append. -/
def alSet {κ ν : Type} [DecidableEq κ] : List (κ × ν) → κ → ν → List (κ × ν)
  | [], k, v => [(k, v)]
  | (k', v') :: rest, k, v =>
    if k' = k then (k, v) :: rest else (k', v') :: alSet rest k v

/-- `SaveHistoryOptions` (source lines 28-31); an omitted options object means
both flags are false (`options?.flag` is falsy). -/
structure SaveHistoryOptions where
  wasNotGenerated : Bool := false
  toCurrentAccount : Bool := false
deriving DecidableEq

/-- The `BaseApi` state relevant to the history store.  Persistent account
storages (`AccountStorage(toHmacSHA256(addr))`) are modelled as a map from
the hashed address to the deserialized `AccountHistory` blob of the history
namespace; `toHmacSHA256` (external `./crypto`) is modelled from the spec as
a deterministic collision-free one-way hash, so the map is keyed directly by
the pre-image address.  `cache` is the `_history` in-memory field, `storage`
is the presence of the common `Storage`, `account` holds the active pair's
raw address and `accountStorage` the key of the active account storage. -/
structure ApiState where
  cache : AccountHistory := []
  accountStorage : Option Address := none
  storage : Bool := false
  account : Option Address := none
  stores : List (Address × AccountHistory) := []
deriving DecidableEq

/-- The `address` getter (source lines 131-136): the active pair's address
re-encoded with the SORA format; `none` models the `''` of a logged-out
state. -/
def addressGet (st : ApiState) : Option Address :=
  st.account.map (fun a => formatAddress a true)

/-- The mapping returned by the `history` getter (source lines 164-170) with
JSON (de)serialization transparent: the persisted blob of the active account
storage, `{}` when absent, and the in-memory cache when there is no account
storage.  (`historyRead` below embeds the same getter with the deserializer
explicit, which is where its failure behaviour lives.) -/
def historyValue (st : ApiState) : AccountHistory :=
  match st.accountStorage with
  | some k => (alLookup st.stores k).getD []
  | none => st.cache

/-- The `history` setter (source lines 172-175): persist to the account
storage when present, and replace the in-memory cache with a copy. -/
def historySet (st : ApiState) (value : AccountHistory) : ApiState :=
  { st with
    stores :=
      match st.accountStorage with
      | some k => alSet st.stores k value
      | none => st.stores
    cache := value }

/-- Whether the record's `from` address differs from the active `address`
(string comparison `historyItemFromAddress !== this.address`; a logged-out
`''` address differs from any non-empty formatted address). -/
def addrDiffers (fa : Address) : Option Address → Bool
  | some ad => decide (fa ≠ ad)
  | none => true

/-- The `needToUpdateAddressStorage` routing decision of `saveHistory`
(source lines 205-212): `some fa` when the merge target is the store keyed
by the hash of the no-prefix form `fa` of the record's `from` address,
`none` when the active account's history is the target. -/
def saveTarget (st : ApiState) (item : HistoryItem) (opts : SaveHistoryOptions) : Option Address :=
  match item.fromAddress with
  | none => none
  | some f =>
    let fa := formatAddress f false
    if !opts.toCurrentAccount && addrDiffers fa (addressGet st) && st.storage then some fa
    else none

/-- The mapping the merge reads (`historyCopy`, source lines 214-220): the
routed address store's blob (or `{}`) in the address-storage branch, and the
refreshed active history otherwise. -/
def targetMapBefore (st : ApiState) (item : HistoryItem) (opts : SaveHistoryOptions) : AccountHistory :=
  match saveTarget st item opts with
  | some fa => (alLookup st.stores fa).getD []
  | none => historyValue st

/-- The record `saveHistory` stores (source lines 222-227): merge the
incoming record over the existing one, then strip `txId` when the
transaction `wasNotGenerated` on-chain. -/
def mergeSave (existing : Option HistoryItem) (incoming : HistoryItem) (wasNotGenerated : Bool) : HistoryItem :=
  let item := mergeItem (existing.getD {}) incoming
  if wasNotGenerated then { item with txId := none } else item

/-- `BaseApi.saveHistory` (source lines 199-236).  The `none` argument models
a null/undefined `historyItem`; the guard also drops records whose `id` is
absent or the empty string (`!historyItem.id`). -/
def saveHistory (st : ApiState) (historyItem : Option HistoryItem) (opts : SaveHistoryOptions) : ApiState :=
  match historyItem with
  | none => st
  | some item =>
    match item.id with
    | none => st
    | some i =>
      if i = "" then st
      else
        let historyCopy := targetMapBefore st item opts
        let merged := mergeSave (alLookup historyCopy i) item opts.wasNotGenerated
        let newMap := alSet historyCopy i merged
        match saveTarget st item opts with
        | some fa => { st with stores := alSet st.stores fa newMap }
        | none => historySet st newMap

/-- The record found, after a `saveHistory` call, under the incoming record's
`id` in the branch-appropriate persistence target (the routed address store,
or the active history). -/
def persistedAfterSave (st : ApiState) (item : HistoryItem) (opts : SaveHistoryOptions) : Option HistoryItem :=
  let st' := saveHistory st (some item) opts
  match item.id with
  | none => none
  | some i =>
    match saveTarget st item opts with
    | some fa => (alLookup st'.stores fa).bind (fun m => alLookup m i)
    | none => alLookup (historyValue st') i

/-- Modelled from the spec: the chain `DispatchError` of a failed extrinsic.
The external error-metadata registry lookup (`api.registry.findMetaError`,
spec: "decodeModuleError(errorCode) → {section, name, docs}") is folded into
the `module` constructor, which carries the decoded section, name and docs;
`other` carries the string form of a non-module error (`BadOrigin`,
`CannotLookup`, ...). -/
inductive DispatchError
  | module (sect : String) (name : String) (docs : List String)
  | other (s : String)
deriving DecidableEq

/-- The `toString()` form of a dispatch error (only the non-module branch of
the source reads it). -/
def dispatchToString : DispatchError → String
  | .module sect name _ => sect ++ "." ++ name
  | .other s => s

/-- A decoded positional datum of a chain event: a plain decoded value
(amounts, account ids, asset ids, hashes, all read as strings) or the
dispatch error carried by `system.ExtrinsicFailed`. -/
inductive EvValue
  | str (s : String)
  | err (e : DispatchError)
deriving DecidableEq

/-- The `toString()` form of an event datum. -/
def EvValue.toStr : EvValue → String
  | .str s => s
  | .err e => dispatchToString e

/-- One entry of `result.events`: the `section`/`method` pair (the source
field `section` is a Lean keyword and is embedded as `sect`) and the decoded
positional data. -/
structure EventRecord where
  sect : String
  method : String
  data : List EvValue
deriving DecidableEq

/-- Modelled from the spec: the external `FPNumber` decimal formatter
(`new FPNumber(amount).toString()`), abstracted as the identity on the
decoded amount string. -/
def fpFormat (s : String) : String := s

/-- Truthiness of a possibly-absent string field (`!history.amount` is true
exactly on an absent/empty value). -/
def truthyStr : Option String → Bool
  | none => false
  | some s => decide (s ≠ "")

/-- JS `String.prototype.trim`: strip whitespace from both ends, modelled
structurally on the character list (the built-in `String.trim` is not used
because its implementation recurses on byte positions). -/
def jsTrimStr (s : String) : String :=
  (((s.toList.dropWhile Char.isWhitespace).reverse.dropWhile Char.isWhitespace).reverse).asString

/-- The `errorMessage` computed for a failed extrinsic's dispatch error
(source lines 361-368): `{name, section}` when the decoded module error has
a truthy section and name, the joined and trimmed docs otherwise, and the
error's string form for non-module errors. -/
def dispatchErrMessage : DispatchError → ErrMsg
  | .module sect name docs =>
    if sect ≠ "" ∧ name ≠ "" then .fields sect name
    else .text (jsTrimStr (String.intercalate " " docs))
  | .other s => .text s

/-- One pass of the finalized-block event scan (`result.events.forEach`,
source lines 334-370), applied to one event.  The branches are tried in the
source's order and the first match wins.  Where the source destructures a
positional datum that is missing or ill-typed it would raise a `TypeError`;
those malformed events are modelled as a no-op here and excluded by
well-formedness hypotheses in the theorems. -/
def applyEvent (now : Nat) (h : HistoryItem) (ev : EventRecord) : HistoryItem :=
  if ev.method = "FeeWithdrawn" ∧ ev.sect = "xorFee" then
    match ev.data.get? 1 with
    | some v => { h with soraNetworkFee := some v.toStr }
    | none => h
  else if ev.method = "AssetRegistered" ∧ ev.sect = "assets" then
    match ev.data.head? with
    | some v => { h with assetAddress := some v.toStr }
    | none => h
  else if ev.method = "Transfer" ∧ (ev.sect = "balances" ∨ ev.sect = "tokens")
      ∧ isLiqType h.type = true then
    match (ev.data.reverse).head? with
    | some amount =>
      let amountFormatted := fpFormat amount.toStr
      if truthyStr h.amount then { h with amount2 := some amountFormatted }
      else { h with amount := some amountFormatted }
    | none => h
  else if (ev.method = "RequestRegistered" ∧ isBridgeType h.type = true)
      ∨ (ev.method = "RequestStatusUpdate" ∧ isEvmType h.type = true) then
    { h with hash := (ev.data.head?).map EvValue.toStr }
  else if ev.sect = "system" ∧ ev.method = "ExtrinsicFailed" then
    match ev.data.head? with
    | some (.err e) =>
      { h with status := some "error", endTime := some now,
               errorMessage := some (dispatchErrMessage e) }
    | _ => h
  else h

/-- The node-reported exclusive extrinsic status (`result.status`). -/
inductive TxStatus
  | future
  | ready
  | broadcast
  | inBlock (blockHash : String)
  | retracted (blockHash : String)
  | finalityTimeout (blockHash : String)
  | finalized (blockHash : String)
  | usurped
  | dropped
  | invalid
deriving DecidableEq

/-- `first(Object.keys(result.status.toJSON())).toLowerCase()` (source line
328): the lowercased name of the reported status variant. -/
def statusKey : TxStatus → String
  | .future => "future"
  | .ready => "ready"
  | .broadcast => "broadcast"
  | .inBlock _ => "inblock"
  | .retracted _ => "retracted"
  | .finalityTimeout _ => "finalitytimeout"
  | .finalized _ => "finalized"
  | .usurped => "usurped"
  | .dropped => "dropped"
  | .invalid => "invalid"

/-- Whether the status is the terminal `finalized` variant. -/
def isFinalStatus : TxStatus → Bool
  | .finalized _ => true
  | _ => false

/-- The notification phase of an `ExtrinsicEvent` (source line 46). -/
inductive Phase
  | inblock
  | finalized
  | error
deriving DecidableEq

/-- `ExtrinsicEvent` (source line 46): a phase tag paired with the record. -/
abbrev ExtrinsicEvent := Phase × HistoryItem

/-- One callback delivery from the node: the reported status, the block's
event list (only read at finalization) and the `Date.now()` instant. -/
structure Notif where
  status : TxStatus
  events : List EventRecord
  now : Nat
deriving DecidableEq

/-- One execution of the `send` status callback (source lines 327-375) on the
current record: returns the updated record, the notifications emitted to the
subscriber, and whether the subscription reached its terminal state (the
source then calls `subscriber.complete()` and `unsub()`). -/
def statusStep (h : HistoryItem) (n : Notif) : HistoryItem × List ExtrinsicEvent × Bool :=
  let h1 := { h with status := some (statusKey n.status) }
  match n.status with
  | .inBlock b =>
    let hb := { h1 with blockId := some b }
    (hb, [(Phase.inblock, hb)], false)
  | .finalized _ =>
    let h2 := { h1 with endTime := some n.now }
    let h3 := n.events.foldl (applyEvent n.now) h2
    let state := if h3.status = some "error" then Phase.error else Phase.finalized
    (h3, [(state, h3)], true)
  | _ => (h1, [], false)

/-- A whole delivered status sequence, processed in order; processing stops
once a terminal step unsubscribes, as the source does via `unsub()`. -/
def runNotifs (h : HistoryItem) : List Notif → HistoryItem × List ExtrinsicEvent
  | [] => (h, [])
  | n :: ns =>
    let r := statusStep h n
    if r.2.2 then (r.1, r.2.1)
    else
      let rest := runNotifs r.1 ns
      (rest.1, r.2.1 ++ rest.2)

/-- JS `String.prototype.split` with a one-character separator, on the
character list of the string: `""` splits to `[""]`, a leading, trailing or
doubled separator contributes empty segments. -/
def jsSplit (sep : Char) : List Char → List (List Char)
  | [] => [[]]
  | c :: cs =>
    if c = sep then [] :: jsSplit sep cs
    else
      match jsSplit sep cs with
      | [] => [[c]]
      | h :: t => (c :: h) :: t

/-- The suffix of a character list after its last occurrence of `sep`, the
whole list when `sep` does not occur. -/
def afterLast (sep : Char) : List Char → List Char
  | [] => []
  | c :: cs =>
    if sep ∈ cs then afterLast sep cs
    else if c = sep then cs
    else c :: cs

/-- `last(e.message.split(':'))?.trim()` (source lines 383-384): the trimmed
last colon-delimited segment of the raw error text. -/
def shortError (msg : String) : String :=
  jsTrimStr (((jsSplit ':' msg.toList).getLastD []).asString)

/-- The spec's description of the shortened message ("the trimmed substring
after the last colon; the whole trimmed message when there is none"), stated
independently of the split-based source computation. -/
def specShortMsg (msg : String) : String :=
  jsTrimStr ((afterLast ':' msg.toList).asString)

/-- JS template interpolation of the possibly-absent numeric `startTime`
(`` `${history.startTime}` `` renders an absent field as "undefined"). -/
def jsNumStr : Option Nat → String
  | some n => toString n
  | none => "undefined"

/-- Modelled from the spec: `encrypt` (external `./crypto`), which per the
source doc "generates a unique string from value"; modelled as an injective
tagging of its input. -/
def encrypt (value : String) : String :=
  "encrypted:" ++ value

/-- The record produced by the `.catch` handler of `submitExtrinsic` (source
lines 378-385): `id` overridden to the encrypted `startTime`, terminal error
status, `endTime`, and the shortened error message (absent when the raised
error has no message). -/
def catchRecord (history : HistoryItem) (now : Nat) (emsg : Option String) : HistoryItem :=
  let errorInfo := emsg.map shortError
  { history with
    id := some (encrypt (jsNumStr history.startTime))
    status := some "error"
    endTime := some now
    errorMessage := errorInfo.map ErrMsg.text }

/-- The whole `.catch` handler (source lines 378-394): build the error
record, persist it with the `wasNotGenerated` flag (stripping `txId`), then
notify the subscriber with the terminal `error` phase and re-raise a failure
carrying the shortened message.  Components: the state after the save, the
in-memory record, the emitted notifications, and the re-raised message. -/
def catchHandler (st : ApiState) (history : HistoryItem) (now : Nat) (emsg : Option String) :
    ApiState × HistoryItem × List ExtrinsicEvent × Option String :=
  let h1 := catchRecord history now emsg
  let st' := saveHistory st (some h1) { wasNotGenerated := true }
  (st', h1, [(Phase.error, h1)], emsg.map shortError)

/-- The `txId`/`id` assignment of `submitExtrinsic` (source lines 317-323):
`txId` is the signed transaction's hash and, when the record has no truthy
`id` yet, `startTime` is stamped and `id` becomes the transaction hash. -/
def assignIds (txHash : String) (now : Nat) (history : HistoryItem) : HistoryItem :=
  let h1 := { history with txId := some txHash }
  if truthyStr h1.id then h1
  else { h1 with startTime := some now, id := h1.txId }

/-- The `history` getter (source lines 164-170) with the deserializer
explicit.  `accountBlob` is `none` when there is no account storage, and
otherwise carries `accountStorage.get(namespace)` (`none` for an absent
blob).  `JSON.parse` (external) is the `parseFn` parameter; the source wraps
it in no exception handler, so a parse failure propagates to the caller,
modelled as `Except.error` carrying the offending blob. -/
def historyRead (parseFn : String → Option AccountHistory)
    (accountBlob : Option (Option String)) (cache : AccountHistory) :
    Except String AccountHistory :=
  match accountBlob with
  | some (some s) =>
    match parseFn s with
    | some m => .ok m
    | none => .error s
  | some none => .ok []
  | none => .ok cache


theorem alLookup_alSet_self {κ ν : Type} [DecidableEq κ] (m : List (κ × ν)) (k : κ) (v : ν) :
    alLookup (alSet m k v) k = some v := by
  induction m with
  | nil => simp [alSet, alLookup]
  | cons p rest ih =>
    obtain ⟨k', v'⟩ := p
    by_cases h : k' = k
    · subst h; simp [alSet, alLookup]
    · simp [alSet, alLookup, h, ih]

theorem alLookup_alSet_ne {κ ν : Type} [DecidableEq κ] (m : List (κ × ν)) (k k' : κ) (v : ν)
    (h : k' ≠ k) : alLookup (alSet m k v) k' = alLookup m k' := by
  have hkk : ¬(k = k') := fun hh => h hh.symm
  induction m with
  | nil => simp only [alSet, alLookup, if_neg hkk]
  | cons p rest ih =>
    obtain ⟨a, b⟩ := p
    by_cases ha : a = k
    · subst ha
      simp only [alSet, if_pos rfl, alLookup, if_neg hkk]
    · simp only [alSet, if_neg ha, alLookup]
      by_cases hak : a = k'
      · rw [if_pos hak, if_pos hak]
      · rw [if_neg hak, if_neg hak, ih]

theorem applyEvent_no_fail (now : Nat) (h : HistoryItem) (ev : EventRecord)
    (hev : ¬(ev.sect = "system" ∧ ev.method = "ExtrinsicFailed")) :
    (applyEvent now h ev).status = h.status ∧
      (applyEvent now h ev).errorMessage = h.errorMessage := by
  unfold applyEvent
  by_cases h1 : ev.method = "FeeWithdrawn" ∧ ev.sect = "xorFee"
  · rw [if_pos h1]; cases ev.data.get? 1 <;> exact ⟨rfl, rfl⟩
  · rw [if_neg h1]
    by_cases h2 : ev.method = "AssetRegistered" ∧ ev.sect = "assets"
    · rw [if_pos h2]; cases ev.data.head? <;> exact ⟨rfl, rfl⟩
    · rw [if_neg h2]
      by_cases h3 : ev.method = "Transfer" ∧ (ev.sect = "balances" ∨ ev.sect = "tokens")
          ∧ isLiqType h.type = true
      · rw [if_pos h3]
        cases (ev.data.reverse).head? with
        | none => exact ⟨rfl, rfl⟩
        | some d =>
          dsimp only
          by_cases ht : truthyStr h.amount
          · rw [if_pos ht]; exact ⟨rfl, rfl⟩
          · rw [if_neg ht]; exact ⟨rfl, rfl⟩
      · rw [if_neg h3]
        by_cases h4 : (ev.method = "RequestRegistered" ∧ isBridgeType h.type = true)
            ∨ (ev.method = "RequestStatusUpdate" ∧ isEvmType h.type = true)
        · rw [if_pos h4]; exact ⟨rfl, rfl⟩
        · rw [if_neg h4, if_neg hev]; exact ⟨rfl, rfl⟩

theorem applyEvent_type (now : Nat) (h : HistoryItem) (ev : EventRecord) :
    (applyEvent now h ev).type = h.type := by
  unfold applyEvent
  by_cases h1 : ev.method = "FeeWithdrawn" ∧ ev.sect = "xorFee"
  · rw [if_pos h1]; cases ev.data.get? 1 <;> rfl
  · rw [if_neg h1]
    by_cases h2 : ev.method = "AssetRegistered" ∧ ev.sect = "assets"
    · rw [if_pos h2]; cases ev.data.head? <;> rfl
    · rw [if_neg h2]
      by_cases h3 : ev.method = "Transfer" ∧ (ev.sect = "balances" ∨ ev.sect = "tokens")
          ∧ isLiqType h.type = true
      · rw [if_pos h3]
        cases (ev.data.reverse).head? with
        | none => rfl
        | some d =>
          dsimp only
          by_cases ht : truthyStr h.amount
          · rw [if_pos ht]
          · rw [if_neg ht]
      · rw [if_neg h3]
        by_cases h4 : (ev.method = "RequestRegistered" ∧ isBridgeType h.type = true)
            ∨ (ev.method = "RequestStatusUpdate" ∧ isEvmType h.type = true)
        · rw [if_pos h4]
        · rw [if_neg h4]
          by_cases h5 : ev.sect = "system" ∧ ev.method = "ExtrinsicFailed"
          · rw [if_pos h5]
            cases hd : ev.data.head? with
            | none => rfl
            | some d => cases d <;> rfl
          · rw [if_neg h5]

theorem applyEvent_id (now : Nat) (h : HistoryItem) (ev : EventRecord) :
    (applyEvent now h ev).id = h.id := by
  unfold applyEvent
  by_cases h1 : ev.method = "FeeWithdrawn" ∧ ev.sect = "xorFee"
  · rw [if_pos h1]; cases ev.data.get? 1 <;> rfl
  · rw [if_neg h1]
    by_cases h2 : ev.method = "AssetRegistered" ∧ ev.sect = "assets"
    · rw [if_pos h2]; cases ev.data.head? <;> rfl
    · rw [if_neg h2]
      by_cases h3 : ev.method = "Transfer" ∧ (ev.sect = "balances" ∨ ev.sect = "tokens")
          ∧ isLiqType h.type = true
      · rw [if_pos h3]
        cases (ev.data.reverse).head? with
        | none => rfl
        | some d =>
          dsimp only
          by_cases ht : truthyStr h.amount
          · rw [if_pos ht]
          · rw [if_neg ht]
      · rw [if_neg h3]
        by_cases h4 : (ev.method = "RequestRegistered" ∧ isBridgeType h.type = true)
            ∨ (ev.method = "RequestStatusUpdate" ∧ isEvmType h.type = true)
        · rw [if_pos h4]
        · rw [if_neg h4]
          by_cases h5 : ev.sect = "system" ∧ ev.method = "ExtrinsicFailed"
          · rw [if_pos h5]
            cases hd : ev.data.head? with
            | none => rfl
            | some d => cases d <;> rfl
          · rw [if_neg h5]

theorem applyEvent_no_transfer (now : Nat) (h : HistoryItem) (ev : EventRecord)
    (hev : ¬(ev.method = "Transfer" ∧ (ev.sect = "balances" ∨ ev.sect = "tokens"))) :
    (applyEvent now h ev).amount = h.amount ∧
      (applyEvent now h ev).amount2 = h.amount2 := by
  unfold applyEvent
  by_cases h1 : ev.method = "FeeWithdrawn" ∧ ev.sect = "xorFee"
  · rw [if_pos h1]; cases ev.data.get? 1 <;> exact ⟨rfl, rfl⟩
  · rw [if_neg h1]
    by_cases h2 : ev.method = "AssetRegistered" ∧ ev.sect = "assets"
    · rw [if_pos h2]; cases ev.data.head? <;> exact ⟨rfl, rfl⟩
    · rw [if_neg h2]
      have h3 : ¬(ev.method = "Transfer" ∧ (ev.sect = "balances" ∨ ev.sect = "tokens")
          ∧ isLiqType h.type = true) := fun hc => hev ⟨hc.1, hc.2.1⟩
      rw [if_neg h3]
      by_cases h4 : (ev.method = "RequestRegistered" ∧ isBridgeType h.type = true)
          ∨ (ev.method = "RequestStatusUpdate" ∧ isEvmType h.type = true)
      · rw [if_pos h4]; exact ⟨rfl, rfl⟩
      · rw [if_neg h4]
        by_cases h5 : ev.sect = "system" ∧ ev.method = "ExtrinsicFailed"
        · rw [if_pos h5]
          cases hd : ev.data.head? with
          | none => exact ⟨rfl, rfl⟩
          | some d => cases d <;> exact ⟨rfl, rfl⟩
        · rw [if_neg h5]; exact ⟨rfl, rfl⟩

theorem applyEvent_fail (now : Nat) (h : HistoryItem) (ev : EventRecord) (e : DispatchError)
    (hs : ev.sect = "system") (hm : ev.method = "ExtrinsicFailed")
    (hd : ev.data.head? = some (.err e)) :
    applyEvent now h ev =
      { h with status := some "error", endTime := some now,
               errorMessage := some (dispatchErrMessage e) } := by
  have n1 : ¬(ev.method = "FeeWithdrawn" ∧ ev.sect = "xorFee") := by
    rintro ⟨a, -⟩; rw [hm] at a; exact absurd a (by decide)
  have n2 : ¬(ev.method = "AssetRegistered" ∧ ev.sect = "assets") := by
    rintro ⟨a, -⟩; rw [hm] at a; exact absurd a (by decide)
  have n3 : ¬(ev.method = "Transfer" ∧ (ev.sect = "balances" ∨ ev.sect = "tokens")
      ∧ isLiqType h.type = true) := by
    rintro ⟨a, -⟩; rw [hm] at a; exact absurd a (by decide)
  have n4 : ¬((ev.method = "RequestRegistered" ∧ isBridgeType h.type = true)
      ∨ (ev.method = "RequestStatusUpdate" ∧ isEvmType h.type = true)) := by
    rintro (⟨a, -⟩ | ⟨a, -⟩) <;> rw [hm] at a <;> exact absurd a (by decide)
  unfold applyEvent
  rw [if_neg n1, if_neg n2, if_neg n3, if_neg n4, if_pos ⟨hs, hm⟩, hd]

theorem applyEvent_transfer (now : Nat) (h : HistoryItem) (ev : EventRecord) (d : EvValue)
    (hm : ev.method = "Transfer") (hs : ev.sect = "balances" ∨ ev.sect = "tokens")
    (hliq : isLiqType h.type = true) (hd : (ev.data.reverse).head? = some d) :
    applyEvent now h ev =
      if truthyStr h.amount then { h with amount2 := some (fpFormat d.toStr) }
      else { h with amount := some (fpFormat d.toStr) } := by
  have n1 : ¬(ev.method = "FeeWithdrawn" ∧ ev.sect = "xorFee") := by
    rintro ⟨a, -⟩; rw [hm] at a; exact absurd a (by decide)
  have n2 : ¬(ev.method = "AssetRegistered" ∧ ev.sect = "assets") := by
    rintro ⟨a, -⟩; rw [hm] at a; exact absurd a (by decide)
  unfold applyEvent
  rw [if_neg n1, if_neg n2, if_pos ⟨hm, hs, hliq⟩, hd]

theorem foldl_no_fail (now : Nat) (l : List EventRecord) (h : HistoryItem)
    (hl : ∀ ev ∈ l, ¬(ev.sect = "system" ∧ ev.method = "ExtrinsicFailed")) :
    (l.foldl (applyEvent now) h).status = h.status ∧
      (l.foldl (applyEvent now) h).errorMessage = h.errorMessage := by
  induction l generalizing h with
  | nil => exact ⟨rfl, rfl⟩
  | cons ev rest ih =>
    have h1 := applyEvent_no_fail now h ev (hl ev (by simp))
    have h2 := ih (applyEvent now h ev) (fun e he => hl e (by simp [he]))
    simp only [List.foldl_cons]
    exact ⟨h2.1.trans h1.1, h2.2.trans h1.2⟩

theorem foldl_type (now : Nat) (l : List EventRecord) (h : HistoryItem) :
    (l.foldl (applyEvent now) h).type = h.type := by
  induction l generalizing h with
  | nil => rfl
  | cons ev rest ih =>
    simp only [List.foldl_cons]
    exact (ih (applyEvent now h ev)).trans (applyEvent_type now h ev)

theorem foldl_id (now : Nat) (l : List EventRecord) (h : HistoryItem) :
    (l.foldl (applyEvent now) h).id = h.id := by
  induction l generalizing h with
  | nil => rfl
  | cons ev rest ih =>
    simp only [List.foldl_cons]
    exact (ih (applyEvent now h ev)).trans (applyEvent_id now h ev)

theorem foldl_no_transfer (now : Nat) (l : List EventRecord) (h : HistoryItem)
    (hl : ∀ ev ∈ l, ¬(ev.method = "Transfer" ∧ (ev.sect = "balances" ∨ ev.sect = "tokens"))) :
    (l.foldl (applyEvent now) h).amount = h.amount ∧
      (l.foldl (applyEvent now) h).amount2 = h.amount2 := by
  induction l generalizing h with
  | nil => exact ⟨rfl, rfl⟩
  | cons ev rest ih =>
    have h1 := applyEvent_no_transfer now h ev (hl ev (by simp))
    have h2 := ih (applyEvent now h ev) (fun e he => hl e (by simp [he]))
    simp only [List.foldl_cons]
    exact ⟨h2.1.trans h1.1, h2.2.trans h1.2⟩

theorem statusStep_nonfinal (h : HistoryItem) (n : Notif) (hn : isFinalStatus n.status = false) :
    (statusStep h n).2.2 = false ∧
      ((statusStep h n).1).errorMessage = h.errorMessage := by
  obtain ⟨s, evs, now⟩ := n
  cases s <;> simp_all [statusStep, isFinalStatus]

theorem statusStep_id (h : HistoryItem) (n : Notif) :
    ((statusStep h n).1).id = h.id := by
  obtain ⟨s, evs, now⟩ := n
  cases s <;> simp [statusStep, foldl_id]


theorem statusStep_final_eq (h : HistoryItem) (b : String) (events : List EventRecord)
    (now : Nat) :
    statusStep h ⟨.finalized b, events, now⟩ =
      ((events.foldl (applyEvent now) { h with status := some "finalized", endTime := some now }),
        [((if (events.foldl (applyEvent now)
              { h with status := some "finalized", endTime := some now }).status = some "error"
           then Phase.error else Phase.finalized),
          events.foldl (applyEvent now) { h with status := some "finalized", endTime := some now })],
        true) := rfl

theorem statusStep_final_no_fail (h : HistoryItem) (b : String) (events : List EventRecord)
    (now : Nat) (hev : ∀ ev ∈ events, ¬(ev.sect = "system" ∧ ev.method = "ExtrinsicFailed")) :
    (statusStep h ⟨.finalized b, events, now⟩).1.status = some "finalized" ∧
      (statusStep h ⟨.finalized b, events, now⟩).1.errorMessage = h.errorMessage ∧
      statusStep h ⟨.finalized b, events, now⟩ =
        ((statusStep h ⟨.finalized b, events, now⟩).1,
          [(Phase.finalized, (statusStep h ⟨.finalized b, events, now⟩).1)], true) := by
  have hf := foldl_no_fail now events
    { h with status := some "finalized", endTime := some now } hev
  have hst : (statusStep h ⟨.finalized b, events, now⟩).1.status = some "finalized" := by
    rw [statusStep_final_eq]; exact hf.1
  have hem : (statusStep h ⟨.finalized b, events, now⟩).1.errorMessage = h.errorMessage := by
    rw [statusStep_final_eq]; exact hf.2
  refine ⟨hst, hem, ?_⟩
  have hne : ¬((events.foldl (applyEvent now)
      { h with status := some "finalized", endTime := some now }).status = some "error") := by
    rw [statusStep_final_eq] at hst
    simp only at hst
    rw [hst]; simp
  rw [statusStep_final_eq, if_neg hne]

theorem runNotifs_nonfinal_errorMessage (pre : List Notif) (h : HistoryItem)
    (hpre : ∀ m ∈ pre, isFinalStatus m.status = false) :
    ((runNotifs h pre).1).errorMessage = h.errorMessage := by
  induction pre generalizing h with
  | nil => rfl
  | cons m rest ih =>
    have hm := statusStep_nonfinal h m (hpre m (by simp))
    have ihr := ih (statusStep h m).1 (fun x hx => hpre x (by simp [hx]))
    simp only [runNotifs, hm.1, Bool.false_eq_true, if_false]
    exact ihr.trans hm.2


theorem runNotifs_append_final (h : HistoryItem) (pre : List Notif) (n : Notif)
    (hpre : ∀ m ∈ pre, isFinalStatus m.status = false)
    (hterm : (statusStep ((runNotifs h pre).1) n).2.2 = true) :
    runNotifs h (pre ++ [n]) =
      ((statusStep ((runNotifs h pre).1) n).1,
        (runNotifs h pre).2 ++ (statusStep ((runNotifs h pre).1) n).2.1) := by
  induction pre generalizing h with
  | nil =>
    simp only [runNotifs] at hterm ⊢
    simp [hterm]
  | cons m rest ih =>
    have hm := statusStep_nonfinal h m (hpre m (by simp))
    have hterm' : (statusStep ((runNotifs (statusStep h m).1 rest).1) n).2.2 = true := by
      have : (runNotifs h (m :: rest)).1 = (runNotifs (statusStep h m).1 rest).1 := by
        simp only [runNotifs, hm.1, Bool.false_eq_true, if_false]
      rw [← this]; exact hterm
    have ihr := ih (statusStep h m).1 (fun x hx => hpre x (by simp [hx])) hterm'
    simp only [List.cons_append, runNotifs, hm.1, Bool.false_eq_true, if_false, List.append_eq,
      ihr, List.append_assoc]

theorem jsSplit_ne_nil (sep : Char) (l : List Char) : jsSplit sep l ≠ [] := by
  induction l with
  | nil => simp [jsSplit]
  | cons c cs ih =>
    simp only [jsSplit]
    by_cases hc : c = sep
    · rw [if_pos hc]; simp
    · rw [if_neg hc]
      cases hs : jsSplit sep cs with
      | nil => exact absurd hs ih
      | cons hd t => simp

theorem jsSplit_no_sep (sep : Char) (l : List Char) (h : sep ∉ l) : jsSplit sep l = [l] := by
  induction l with
  | nil => rfl
  | cons c cs ih =>
    have hc : ¬(c = sep) := fun hh => h (hh ▸ List.mem_cons_self c cs)
    have hcs : sep ∉ cs := fun hh => h (List.mem_cons_of_mem c hh)
    simp only [jsSplit, if_neg hc, ih hcs]

theorem jsSplit_two_le (sep : Char) (l : List Char) (h : sep ∈ l) :
    2 ≤ (jsSplit sep l).length := by
  induction l with
  | nil => simp at h
  | cons c cs ih =>
    simp only [jsSplit]
    by_cases hc : c = sep
    · rw [if_pos hc]
      have := List.length_pos.mpr (jsSplit_ne_nil sep cs)
      simp only [List.length_cons]
      omega
    · rw [if_neg hc]
      have hcs : sep ∈ cs := by
        rcases List.mem_cons.mp h with h1 | h1
        · exact absurd h1.symm hc
        · exact h1
      cases hs : jsSplit sep cs with
      | nil => exact absurd hs (jsSplit_ne_nil sep cs)
      | cons hd t =>
        have := ih hcs
        rw [hs] at this
        simpa using this

theorem getLastD_irrel {α : Type} (l : List α) (a b : α) (h : l ≠ []) :
    l.getLastD a = l.getLastD b := by
  cases l with
  | nil => exact absurd rfl h
  | cons x xs => rw [List.getLastD_cons, List.getLastD_cons]

theorem afterLast_no_sep (sep : Char) (l : List Char) (h : sep ∉ l) :
    afterLast sep l = l := by
  induction l with
  | nil => rfl
  | cons c cs ih =>
    have hc : ¬(c = sep) := fun hh => h (hh ▸ List.mem_cons_self c cs)
    have hcs : sep ∉ cs := fun hh => h (List.mem_cons_of_mem c hh)
    simp only [afterLast, if_neg hcs, if_neg hc]

theorem jsSplit_getLastD (sep : Char) (l : List Char) :
    (jsSplit sep l).getLastD [] = afterLast sep l := by
  induction l with
  | nil => rfl
  | cons c cs ih =>
    simp only [jsSplit, afterLast]
    by_cases hc : c = sep
    · rw [if_pos hc, if_pos hc]
      rw [List.getLastD_cons, ih]
      by_cases hm : sep ∈ cs
      · rw [if_pos hm]
      · rw [if_neg hm, afterLast_no_sep sep cs hm]
    · rw [if_neg hc, if_neg hc]
      by_cases hm : sep ∈ cs
      · rw [if_pos hm]
        cases hs : jsSplit sep cs with
        | nil => exact absurd hs (jsSplit_ne_nil sep cs)
        | cons hd t =>
          have h2 := jsSplit_two_le sep cs hm
          rw [hs] at h2
          have ht : t ≠ [] := by
            cases t
            · simp at h2
            · simp
          rw [List.getLastD_cons, getLastD_irrel t (c :: hd) hd ht,
            ← List.getLastD_cons hd, ← hs,
            getLastD_irrel (jsSplit sep cs) hd [] (jsSplit_ne_nil sep cs), ih]
      · rw [if_neg hm, jsSplit_no_sep sep cs hm]
        rfl

theorem shortError_eq_specShortMsg (msg : String) : shortError msg = specShortMsg msg := by
  unfold shortError specShortMsg
  rw [jsSplit_getLastD]

theorem encrypt_ne_empty (s : String) : encrypt s ≠ "" := by
  unfold encrypt
  intro hcon
  have hd2 : ("encrypted:".data ++ s.data) = ([] : List Char) := by
    have := congrArg String.data hcon
    rwa [String.data_append] at this
  have h0 : "encrypted:".data = ([] : List Char) := (List.append_eq_nil.mp hd2).1
  exact absurd h0 (by decide)


theorem persistedAfterSave_eq (st : ApiState) (item : HistoryItem) (opts : SaveHistoryOptions)
    (i : String) (hid : item.id = some i) (hne : i ≠ "") :
    persistedAfterSave st item opts =
      some (mergeSave (alLookup (targetMapBefore st item opts) i) item opts.wasNotGenerated) := by
  cases htgt : saveTarget st item opts with
  | some fa =>
    simp [persistedAfterSave, saveHistory, hid, htgt, hne, alLookup_alSet_self]
  | none =>
    cases hks : st.accountStorage with
    | some k =>
      simp [persistedAfterSave, saveHistory, historySet, historyValue, hid, htgt, hne, hks,
        alLookup_alSet_self]
    | none =>
      simp [persistedAfterSave, saveHistory, historySet, historyValue, hid, htgt, hne, hks,
        alLookup_alSet_self]

/-- C9: for every address, the round trip
`formatAddress(formatAddress(addr, false), true)` decodes to the same raw
public key as the original address: re-encoding without and then with the
network prefix preserves the underlying public key. -/
theorem c9_formatAddress_roundtrip (addr : Address) :
    decodeAddress (formatAddress (formatAddress addr false) true) = decodeAddress addr := rfl

/-- C10: calling `saveHistory` with a null/undefined item, or with an item
whose `id` is absent or the empty string, is a complete no-op: the state —
the in-memory cache and every persisted storage namespace — is unchanged and
no error is raised (the guard returns before any address formatting or
storage access). -/
theorem c10_saveHistory_guard_noop :
    (∀ st opts, saveHistory st none opts = st) ∧
    (∀ st item opts, item.id = none ∨ item.id = some "" →
      saveHistory st (some item) opts = st) := by
  refine ⟨fun st opts => rfl, fun st item opts hid => ?_⟩
  rcases hid with h | h <;> simp [saveHistory, h]

/-- Witness for C10 at a concrete state and id-less record. -/
theorem c10_saveHistory_guard_noop_witness :
    saveHistory { storage := true } (some { type := some Operation.Transfer }) {} =
      { storage := true } :=
  c10_saveHistory_guard_noop.2 { storage := true } { type := some Operation.Transfer } {}
    (Or.inl rfl)

/-- C1 counterexample: the claim says the `history` getter never throws for
any stored string, but the source applies `JSON.parse` with no exception
handler, so a blob the deserializer rejects (as `JSON.parse` rejects the
non-JSON text "not json") propagates the failure to the caller. -/
theorem c1_history_read_cex :
    ¬ ∀ (parseFn : String → Option AccountHistory) (blob : Option (Option String))
        (cache : AccountHistory),
        ∃ m, historyRead parseFn blob cache = Except.ok m := by
  intro hcl
  obtain ⟨m, hm⟩ := hcl (fun _ => none) (some (some "not json")) []
  exact absurd hm (by simp [historyRead])

/-- C1 (amended): reading the account history returns the deserialized
persisted mapping when the deserializer succeeds and the empty mapping when
no blob is persisted, but a deserialization failure propagates to the caller
(the getter raises) instead of falling back to the empty mapping. -/
theorem c1_history_read_amended :
    (∀ (parseFn : String → Option AccountHistory) (s : String) (m : AccountHistory)
        (cache : AccountHistory), parseFn s = some m →
      historyRead parseFn (some (some s)) cache = Except.ok m) ∧
    (∀ (parseFn : String → Option AccountHistory) (cache : AccountHistory),
      historyRead parseFn (some none) cache = Except.ok []) ∧
    (∀ (parseFn : String → Option AccountHistory) (s : String) (cache : AccountHistory),
      parseFn s = none → historyRead parseFn (some (some s)) cache = Except.error s) := by
  refine ⟨fun pf s m cache hp => ?_, fun pf cache => rfl, fun pf s cache hp => ?_⟩
  · simp [historyRead, hp]
  · simp [historyRead, hp]

/-- Witness for C1 (amended) at a concrete deserializer and blob. -/
theorem c1_history_read_amended_witness :
    historyRead (fun _ => some [("a", {})]) (some (some "blob")) [] =
      Except.ok [("a", {})] :=
  c1_history_read_amended.1 (fun _ => some [("a", {})]) "blob" [("a", {})] [] rfl

/-- C7: for every caught submission error, the recorded `errorMessage` and
the re-raised failure both carry exactly the trimmed substring of the error
message after its last colon (the whole trimmed message when it has no
colon); the emitted terminal notification is the `error` phase with the
catch record, and the returned state is the one obtained by persisting that
record with the `wasNotGenerated` flag before notifying. -/
theorem c7_catch_short_message (st : ApiState) (h : HistoryItem) (now : Nat) (msg : String) :
    (catchRecord h now (some msg)).errorMessage = some (ErrMsg.text (specShortMsg msg)) ∧
    (catchHandler st h now (some msg)).2.2.2 = some (specShortMsg msg) ∧
    (catchHandler st h now (some msg)).2.2.1 =
      [(Phase.error, catchRecord h now (some msg))] ∧
    (catchHandler st h now (some msg)).1 =
      saveHistory st (some (catchRecord h now (some msg))) { wasNotGenerated := true } := by
  refine ⟨?_, ?_, rfl, rfl⟩
  · simp [catchRecord, shortError_eq_specShortMsg]
  · simp [catchHandler, shortError_eq_specShortMsg]

/-- C2 counterexample: at the claim's own scenario input — a rejection with
message "1010: Invalid Transaction: nonce too low" before any status
callback — the persisted record's `errorMessage` is the trailing colon
segment "nonce too low", not "Invalid Transaction: nonce too low" as the
claim states. -/
theorem c2_error_message_cex :
    ((persistedAfterSave
        { cache := [], accountStorage := some ⟨42, 7⟩, storage := true,
          account := some ⟨42, 7⟩, stores := [] }
        (catchRecord
          (assignIds "0xabc" 5 { type := some Operation.Transfer, fromAddress := some ⟨69, 7⟩ })
          9 (some "1010: Invalid Transaction: nonce too low"))
        { wasNotGenerated := true }).map HistoryItem.errorMessage
      = some (some (ErrMsg.text "nonce too low"))) ∧
    ErrMsg.text "nonce too low" ≠ ErrMsg.text "Invalid Transaction: nonce too low" := by
  exact ⟨by decide, by decide⟩

/-- C2 (amended): for a submission whose signing/send step rejects with the
error message "1010: Invalid Transaction: nonce too low" before any status
callback fires, the persisted history record has status "error",
`errorMessage` equal to "nonce too low" (the trimmed last colon segment),
and no `txId` field. -/
theorem c2_error_message_amended (st : ApiState) (h : HistoryItem) (now : Nat) :
    ∃ r, persistedAfterSave st
        (catchRecord h now (some "1010: Invalid Transaction: nonce too low"))
        { wasNotGenerated := true } = some r ∧
      r.status = some "error" ∧
      r.errorMessage = some (ErrMsg.text "nonce too low") ∧
      r.txId = none := by
  exact ⟨_, persistedAfterSave_eq st _ { wasNotGenerated := true }
    (encrypt (jsNumStr h.startTime)) rfl (encrypt_ne_empty _), rfl, rfl, rfl⟩

/-- C3 counterexample: a record first submitted with transaction hash
"0xabc" gets `id = "0xabc"`, but the transport-error catch path then
reassigns `id` to the encrypted `startTime`, so `id` does change after its
first assignment, contrary to the claim. -/
theorem c3_id_immutable_cex :
    (assignIds "0xabc" 5 { type := some Operation.Transfer }).id = some "0xabc" ∧
    (catchRecord (assignIds "0xabc" 5 { type := some Operation.Transfer }) 9 (some "boom")).id
      = some "encrypted:5" ∧
    some ("encrypted:5" : String) ≠ some ("0xabc" : String) := by
  exact ⟨rfl, rfl, by decide⟩

/-- C3 (amended): `id` is assigned at first submission (when unset, it
becomes the transaction hash, together with `txId`), an already-truthy `id`
is kept, status updates never change `id`, and every save merges into the
record stored under the incoming record's `id`; but the transport-error
catch path reassigns `id` to the encrypted `startTime`-derived value before
its final save. -/
theorem c3_id_assignment_amended :
    (∀ h txHash now, truthyStr h.id = false →
      (assignIds txHash now h).id = some txHash ∧ (assignIds txHash now h).txId = some txHash) ∧
    (∀ h txHash now, truthyStr h.id = true → (assignIds txHash now h).id = h.id) ∧
    (∀ h n, ((statusStep h n).1).id = h.id) ∧
    (∀ st item opts i, item.id = some i → i ≠ "" →
      persistedAfterSave st item opts =
        some (mergeSave (alLookup (targetMapBefore st item opts) i) item opts.wasNotGenerated)) ∧
    (∀ h now emsg, (catchRecord h now emsg).id = some (encrypt (jsNumStr h.startTime))) := by
  refine ⟨fun h txHash now hf => ?_, fun h txHash now ht => ?_,
    fun h n => statusStep_id h n,
    fun st item opts i hid hne => persistedAfterSave_eq st item opts i hid hne,
    fun h now emsg => rfl⟩
  · simp [assignIds, hf]
  · simp [assignIds, ht]

/-- Witness for C3 (amended) at concrete records, a concrete notification
and a concrete save. -/
theorem c3_id_assignment_amended_witness :
    ((assignIds "0xaa" 3 {}).id = some "0xaa" ∧ (assignIds "0xaa" 3 {}).txId = some "0xaa") ∧
    (assignIds "0xbb" 4 { id := some "keep" }).id = some "keep" ∧
    ((statusStep {} ⟨TxStatus.ready, [], 1⟩).1).id = none ∧
    persistedAfterSave {} { id := some "x" } {} =
      some (mergeSave (alLookup (targetMapBefore {} { id := some "x" } {}) "x")
        { id := some "x" } false) ∧
    (catchRecord {} 2 none).id = some "encrypted:undefined" := by
  refine ⟨c3_id_assignment_amended.1 {} "0xaa" 3 (by decide),
    c3_id_assignment_amended.2.1 { id := some "keep" } "0xbb" 4 (by decide),
    c3_id_assignment_amended.2.2.1 {} ⟨TxStatus.ready, [], 1⟩,
    c3_id_assignment_amended.2.2.2.1 {} { id := some "x" } {} "x" rfl (by decide),
    c3_id_assignment_amended.2.2.2.2 {} 2 none⟩

/-- C5: for every status sequence whose non-terminal notifications are
non-finalized and which ends with a finalized status whose block event list
contains no `system.ExtrinsicFailed` event, starting from a record with
`errorMessage` unset, the resulting record's status is exactly "finalized",
its `errorMessage` remains unset, and the terminal notification carries the
`finalized` phase. -/
theorem c5_finalized_clean (h : HistoryItem) (pre : List Notif) (b : String)
    (events : List EventRecord) (now : Nat)
    (hem : h.errorMessage = none)
    (hpre : ∀ m ∈ pre, isFinalStatus m.status = false)
    (hev : ∀ ev ∈ events, ¬(ev.sect = "system" ∧ ev.method = "ExtrinsicFailed")) :
    (runNotifs h (pre ++ [⟨.finalized b, events, now⟩])).1.status = some "finalized" ∧
    (runNotifs h (pre ++ [⟨.finalized b, events, now⟩])).1.errorMessage = none ∧
    ∃ l, (runNotifs h (pre ++ [⟨.finalized b, events, now⟩])).2 =
      l ++ [(Phase.finalized, (runNotifs h (pre ++ [⟨.finalized b, events, now⟩])).1)] := by
  have hp := runNotifs_nonfinal_errorMessage pre h hpre
  have hfin := statusStep_final_no_fail ((runNotifs h pre).1) b events now hev
  have hterm : (statusStep ((runNotifs h pre).1) ⟨.finalized b, events, now⟩).2.2 = true :=
    congrArg (fun p => p.2.2) hfin.2.2
  have happ := runNotifs_append_final h pre ⟨.finalized b, events, now⟩ hpre hterm
  have hemit : (statusStep ((runNotifs h pre).1) ⟨.finalized b, events, now⟩).2.1 =
      [(Phase.finalized, (statusStep ((runNotifs h pre).1) ⟨.finalized b, events, now⟩).1)] :=
    congrArg (fun p => p.2.1) hfin.2.2
  rw [happ]
  exact ⟨hfin.1, hfin.2.1.trans (hp.trans hem), ⟨(runNotifs h pre).2, by rw [hemit]⟩⟩

/-- Witness for C5 on a concrete ready/inblock/finalized delivery with a fee
event in the finalized block. -/
theorem c5_finalized_clean_witness :
    (runNotifs { type := some Operation.Transfer }
        ([⟨TxStatus.ready, [], 1⟩, ⟨TxStatus.inBlock "0xAA", [], 2⟩] ++
          [⟨TxStatus.finalized "0xBB",
            [⟨"xorFee", "FeeWithdrawn", [EvValue.str "w", EvValue.str "7"]⟩], 3⟩])).1.status
      = some "finalized" ∧
    (runNotifs { type := some Operation.Transfer }
        ([⟨TxStatus.ready, [], 1⟩, ⟨TxStatus.inBlock "0xAA", [], 2⟩] ++
          [⟨TxStatus.finalized "0xBB",
            [⟨"xorFee", "FeeWithdrawn", [EvValue.str "w", EvValue.str "7"]⟩], 3⟩])).1.errorMessage
      = none ∧
    ∃ l, (runNotifs { type := some Operation.Transfer }
        ([⟨TxStatus.ready, [], 1⟩, ⟨TxStatus.inBlock "0xAA", [], 2⟩] ++
          [⟨TxStatus.finalized "0xBB",
            [⟨"xorFee", "FeeWithdrawn", [EvValue.str "w", EvValue.str "7"]⟩], 3⟩])).2 =
      l ++ [(Phase.finalized,
        (runNotifs { type := some Operation.Transfer }
          ([⟨TxStatus.ready, [], 1⟩, ⟨TxStatus.inBlock "0xAA", [], 2⟩] ++
            [⟨TxStatus.finalized "0xBB",
              [⟨"xorFee", "FeeWithdrawn", [EvValue.str "w", EvValue.str "7"]⟩], 3⟩])).1)] :=
  c5_finalized_clean { type := some Operation.Transfer }
    [⟨TxStatus.ready, [], 1⟩, ⟨TxStatus.inBlock "0xAA", [], 2⟩] "0xBB"
    [⟨"xorFee", "FeeWithdrawn", [EvValue.str "w", EvValue.str "7"]⟩] 3
    rfl (by decide) (by decide)

/-- C6: for every finalized block event list containing a (well-formed)
`system.ExtrinsicFailed` event, the resulting record's status is the fixed
"error" tag, the terminal notification phase is `error`, and `errorMessage`
is set — never absent — to the value decoded from the last failed event's
dispatch error: the structured `{section, name}` pair when the module error
has both a section and a name, a string otherwise.  Hypotheses: `ev` is the
last failed event of the list, its first datum is the dispatch error, and
any failed event of the prefix is well-formed too (a malformed one would
raise a `TypeError` in the source rather than reach this classification). -/
theorem c6_extrinsic_failed (h : HistoryItem) (b : String) (now : Nat)
    (l0 l1 : List EventRecord) (ev : EventRecord) (e : DispatchError)
    (hs : ev.sect = "system") (hm : ev.method = "ExtrinsicFailed")
    (hd : ev.data.head? = some (EvValue.err e))
    (hl0 : ∀ x ∈ l0, x.sect = "system" → x.method = "ExtrinsicFailed" →
      ∃ e', x.data.head? = some (EvValue.err e'))
    (hl1 : ∀ x ∈ l1, ¬(x.sect = "system" ∧ x.method = "ExtrinsicFailed")) :
    (statusStep h ⟨.finalized b, l0 ++ ev :: l1, now⟩).1.status = some "error" ∧
    (statusStep h ⟨.finalized b, l0 ++ ev :: l1, now⟩).1.errorMessage
      = some (dispatchErrMessage e) ∧
    ((statusStep h ⟨.finalized b, l0 ++ ev :: l1, now⟩).1.errorMessage).isSome = true ∧
    (statusStep h ⟨.finalized b, l0 ++ ev :: l1, now⟩).2 =
      ([(Phase.error, (statusStep h ⟨.finalized b, l0 ++ ev :: l1, now⟩).1)], true) := by
  have heq := statusStep_final_eq h b (l0 ++ ev :: l1) now
  have hmid : ((l0 ++ ev :: l1).foldl (applyEvent now)
      { h with status := some "finalized", endTime := some now }).status = some "error" ∧
      ((l0 ++ ev :: l1).foldl (applyEvent now)
        { h with status := some "finalized", endTime := some now }).errorMessage
        = some (dispatchErrMessage e) := by
    rw [List.foldl_append, List.foldl_cons, applyEvent_fail now _ ev e hs hm hd]
    exact ⟨(foldl_no_fail now l1 _ hl1).1, (foldl_no_fail now l1 _ hl1).2⟩
  refine ⟨?_, ?_, ?_, ?_⟩
  · rw [heq]; exact hmid.1
  · rw [heq]; exact hmid.2
  · rw [heq]
    show (((l0 ++ ev :: l1).foldl (applyEvent now)
      { h with status := some "finalized", endTime := some now }).errorMessage).isSome = true
    rw [hmid.2]; rfl
  · rw [heq]
    have hmid1 := hmid.1
    rw [List.foldl_append, List.foldl_cons] at hmid1
    simp [hmid.1, hmid1]

/-- Witness for C6 on a concrete finalized block whose single event is a
well-formed module-error `system.ExtrinsicFailed`. -/
theorem c6_extrinsic_failed_witness :
    (statusStep {} ⟨TxStatus.finalized "0xB",
        [⟨"system", "ExtrinsicFailed",
          [EvValue.err (DispatchError.module "assets" "Underflow" ["doc"])]⟩], 3⟩).1.status
      = some "error" ∧
    (statusStep {} ⟨TxStatus.finalized "0xB",
        [⟨"system", "ExtrinsicFailed",
          [EvValue.err (DispatchError.module "assets" "Underflow" ["doc"])]⟩], 3⟩).1.errorMessage
      = some (ErrMsg.fields "assets" "Underflow") ∧
    ((statusStep {} ⟨TxStatus.finalized "0xB",
        [⟨"system", "ExtrinsicFailed",
          [EvValue.err (DispatchError.module "assets" "Underflow" ["doc"])]⟩], 3⟩).1.errorMessage).isSome
      = true ∧
    (statusStep {} ⟨TxStatus.finalized "0xB",
        [⟨"system", "ExtrinsicFailed",
          [EvValue.err (DispatchError.module "assets" "Underflow" ["doc"])]⟩], 3⟩).2 =
      ([(Phase.error,
        (statusStep {} ⟨TxStatus.finalized "0xB",
          [⟨"system", "ExtrinsicFailed",
            [EvValue.err (DispatchError.module "assets" "Underflow" ["doc"])]⟩], 3⟩).1)], true) :=
  c6_extrinsic_failed {} "0xB" 3 [] []
    ⟨"system", "ExtrinsicFailed", [EvValue.err (DispatchError.module "assets" "Underflow" ["doc"])]⟩
    (DispatchError.module "assets" "Underflow" ["doc"]) rfl rfl rfl
    (fun x hx => absurd hx (List.not_mem_nil x))
    (fun x hx => absurd hx (List.not_mem_nil x))

theorem applyEvent_transfer_first (now : Nat) (h : HistoryItem) (ev : EventRecord) (d : EvValue)
    (hm : ev.method = "Transfer") (hs : ev.sect = "balances" ∨ ev.sect = "tokens")
    (hliq : isLiqType h.type = true) (hd : (ev.data.reverse).head? = some d)
    (hf : truthyStr h.amount = false) :
    (applyEvent now h ev).amount = some (fpFormat d.toStr) ∧
      (applyEvent now h ev).amount2 = h.amount2 ∧
      (applyEvent now h ev).type = h.type := by
  have he := applyEvent_transfer now h ev d hm hs hliq hd
  rw [hf] at he
  simp only [Bool.false_eq_true, if_false] at he
  rw [he]
  exact ⟨rfl, rfl, rfl⟩

theorem applyEvent_transfer_second (now : Nat) (h : HistoryItem) (ev : EventRecord) (d : EvValue)
    (hm : ev.method = "Transfer") (hs : ev.sect = "balances" ∨ ev.sect = "tokens")
    (hliq : isLiqType h.type = true) (hd : (ev.data.reverse).head? = some d)
    (ht : truthyStr h.amount = true) :
    (applyEvent now h ev).amount = h.amount ∧
      (applyEvent now h ev).amount2 = some (fpFormat d.toStr) ∧
      (applyEvent now h ev).type = h.type := by
  have he := applyEvent_transfer now h ev d hm hs hliq hd
  rw [ht] at he
  simp only [if_true] at he
  rw [he]
  exact ⟨rfl, rfl, rfl⟩

/-- C4: during the finalized-block event scan of a record whose operation
kind is a liquidity-pool operation and whose `amount`/`amount2` start unset,
when the event list contains exactly two balances/tokens `Transfer` events,
the first populates `amount` and the second populates `amount2` without
overwriting the first; when it contains exactly one, only `amount` is set
and `amount2` stays unset.  (The formatted first amount is assumed
non-empty; the external `FPNumber` formatter never yields the empty
string.) -/
theorem c4_liquidity_transfer_amounts :
    (∀ (now : Nat) (h : HistoryItem) (l0 l1 l2 : List EventRecord)
        (e1 e2 : EventRecord) (d1 d2 : EvValue),
      h.amount = none → h.amount2 = none → isLiqType h.type = true →
      e1.method = "Transfer" → (e1.sect = "balances" ∨ e1.sect = "tokens") →
      (e1.data.reverse).head? = some d1 →
      e2.method = "Transfer" → (e2.sect = "balances" ∨ e2.sect = "tokens") →
      (e2.data.reverse).head? = some d2 →
      fpFormat d1.toStr ≠ "" →
      (∀ x ∈ l0 ++ l1 ++ l2,
        ¬(x.method = "Transfer" ∧ (x.sect = "balances" ∨ x.sect = "tokens"))) →
      ((l0 ++ e1 :: l1 ++ e2 :: l2).foldl (applyEvent now) h).amount
          = some (fpFormat d1.toStr) ∧
        ((l0 ++ e1 :: l1 ++ e2 :: l2).foldl (applyEvent now) h).amount2
          = some (fpFormat d2.toStr)) ∧
    (∀ (now : Nat) (h : HistoryItem) (l0 l1 : List EventRecord)
        (e1 : EventRecord) (d1 : EvValue),
      h.amount = none → h.amount2 = none → isLiqType h.type = true →
      e1.method = "Transfer" → (e1.sect = "balances" ∨ e1.sect = "tokens") →
      (e1.data.reverse).head? = some d1 →
      (∀ x ∈ l0 ++ l1,
        ¬(x.method = "Transfer" ∧ (x.sect = "balances" ∨ x.sect = "tokens"))) →
      ((l0 ++ e1 :: l1).foldl (applyEvent now) h).amount = some (fpFormat d1.toStr) ∧
        ((l0 ++ e1 :: l1).foldl (applyEvent now) h).amount2 = none) := by
  constructor
  · intro now h l0 l1 l2 e1 e2 d1 d2 ha ha2 hliq hm1 hs1 hd1 hm2 hs2 hd2 hne1 hrest
    have hr0 : ∀ x ∈ l0, ¬(x.method = "Transfer" ∧ (x.sect = "balances" ∨ x.sect = "tokens")) :=
      fun x hx => hrest x (by simp [hx])
    have hr1 : ∀ x ∈ l1, ¬(x.method = "Transfer" ∧ (x.sect = "balances" ∨ x.sect = "tokens")) :=
      fun x hx => hrest x (by simp [hx])
    have hr2 : ∀ x ∈ l2, ¬(x.method = "Transfer" ∧ (x.sect = "balances" ∨ x.sect = "tokens")) :=
      fun x hx => hrest x (by simp [hx])
    have h0 := foldl_no_transfer now l0 h hr0
    have hty0 : isLiqType (l0.foldl (applyEvent now) h).type = true := by
      rw [foldl_type]; exact hliq
    have hf0 : truthyStr (l0.foldl (applyEvent now) h).amount = false := by
      rw [h0.1, ha]; rfl
    have a1 := applyEvent_transfer_first now (l0.foldl (applyEvent now) h) e1 d1
      hm1 hs1 hty0 hd1 hf0
    have h1 := foldl_no_transfer now l1 (applyEvent now (l0.foldl (applyEvent now) h) e1) hr1
    have hM1a : (l1.foldl (applyEvent now)
        (applyEvent now (l0.foldl (applyEvent now) h) e1)).amount = some (fpFormat d1.toStr) :=
      h1.1.trans a1.1
    have hM1b : (l1.foldl (applyEvent now)
        (applyEvent now (l0.foldl (applyEvent now) h) e1)).amount2 = none :=
      h1.2.trans (a1.2.1.trans (h0.2.trans ha2))
    have hMty : isLiqType (l1.foldl (applyEvent now)
        (applyEvent now (l0.foldl (applyEvent now) h) e1)).type = true := by
      rw [foldl_type, a1.2.2]; exact hty0
    have hMtrue : truthyStr (l1.foldl (applyEvent now)
        (applyEvent now (l0.foldl (applyEvent now) h) e1)).amount = true := by
      rw [hM1a]; simp [truthyStr, hne1]
    have a2 := applyEvent_transfer_second now
      (l1.foldl (applyEvent now) (applyEvent now (l0.foldl (applyEvent now) h) e1)) e2 d2
      hm2 hs2 hMty hd2 hMtrue
    have h2 := foldl_no_transfer now l2
      (applyEvent now
        (l1.foldl (applyEvent now) (applyEvent now (l0.foldl (applyEvent now) h) e1)) e2) hr2
    constructor
    · simp only [List.foldl_append, List.foldl_cons]
      exact h2.1.trans (a2.1.trans hM1a)
    · simp only [List.foldl_append, List.foldl_cons]
      exact h2.2.trans a2.2.1
  · intro now h l0 l1 e1 d1 ha ha2 hliq hm1 hs1 hd1 hrest
    have hr0 : ∀ x ∈ l0, ¬(x.method = "Transfer" ∧ (x.sect = "balances" ∨ x.sect = "tokens")) :=
      fun x hx => hrest x (by simp [hx])
    have hr1 : ∀ x ∈ l1, ¬(x.method = "Transfer" ∧ (x.sect = "balances" ∨ x.sect = "tokens")) :=
      fun x hx => hrest x (by simp [hx])
    have h0 := foldl_no_transfer now l0 h hr0
    have hty0 : isLiqType (l0.foldl (applyEvent now) h).type = true := by
      rw [foldl_type]; exact hliq
    have hf0 : truthyStr (l0.foldl (applyEvent now) h).amount = false := by
      rw [h0.1, ha]; rfl
    have a1 := applyEvent_transfer_first now (l0.foldl (applyEvent now) h) e1 d1
      hm1 hs1 hty0 hd1 hf0
    have h1 := foldl_no_transfer now l1 (applyEvent now (l0.foldl (applyEvent now) h) e1) hr1
    constructor
    · simp only [List.foldl_append, List.foldl_cons]
      exact h1.1.trans a1.1
    · simp only [List.foldl_append, List.foldl_cons]
      exact h1.2.trans (a1.2.1.trans (h0.2.trans ha2))

/-- Witness for C4 on concrete finalized-block scans with two and with one
balances `Transfer` event. -/
theorem c4_liquidity_transfer_amounts_witness :
    ((([] ++ (⟨"balances", "Transfer", [EvValue.str "f", EvValue.str "t", EvValue.str "100"]⟩ : EventRecord)
        :: [] ++ (⟨"balances", "Transfer", [EvValue.str "f", EvValue.str "t", EvValue.str "200"]⟩ : EventRecord)
        :: []).foldl (applyEvent 3) { type := some Operation.AddLiquidity }).amount
      = some (fpFormat "100") ∧
    (([] ++ (⟨"balances", "Transfer", [EvValue.str "f", EvValue.str "t", EvValue.str "100"]⟩ : EventRecord)
        :: [] ++ (⟨"balances", "Transfer", [EvValue.str "f", EvValue.str "t", EvValue.str "200"]⟩ : EventRecord)
        :: []).foldl (applyEvent 3) { type := some Operation.AddLiquidity }).amount2
      = some (fpFormat "200")) ∧
    ((([] ++ (⟨"tokens", "Transfer", [EvValue.str "f", EvValue.str "t", EvValue.str "55"]⟩ : EventRecord)
        :: []).foldl (applyEvent 4) { type := some Operation.RemoveLiquidity }).amount
      = some (fpFormat "55") ∧
    (([] ++ (⟨"tokens", "Transfer", [EvValue.str "f", EvValue.str "t", EvValue.str "55"]⟩ : EventRecord)
        :: []).foldl (applyEvent 4) { type := some Operation.RemoveLiquidity }).amount2
      = none) :=
  ⟨c4_liquidity_transfer_amounts.1 3 { type := some Operation.AddLiquidity } [] [] []
      ⟨"balances", "Transfer", [EvValue.str "f", EvValue.str "t", EvValue.str "100"]⟩
      ⟨"balances", "Transfer", [EvValue.str "f", EvValue.str "t", EvValue.str "200"]⟩
      (EvValue.str "100") (EvValue.str "200")
      rfl rfl rfl rfl (Or.inl rfl) rfl rfl (Or.inl rfl) rfl (by decide)
      (by intro x hx; simp at hx),
    c4_liquidity_transfer_amounts.2 4 { type := some Operation.RemoveLiquidity } [] []
      ⟨"tokens", "Transfer", [EvValue.str "f", EvValue.str "t", EvValue.str "55"]⟩
      (EvValue.str "55")
      rfl rfl rfl rfl (Or.inr rfl) rfl
      (by intro x hx; simp at hx)⟩

/-- C8 counterexample: with the active pair's raw address stored in the
default (42) format, a record whose `from` is that same address in 42 format
satisfies all the claim's hypotheses — its no-prefix form differs from the
SORA-prefixed active `address`, common storage is available, and no
`toCurrentAccount` was passed — yet the hash of the no-prefix `from` address
coincides with the active account's own storage key, so the save mutates the
active account's stored history, contrary to the claim. -/
theorem c8_save_routing_cex :
    (({ cache := [], accountStorage := some ⟨42, 7⟩, storage := true, account := some ⟨42, 7⟩,
        stores := [(⟨42, 7⟩, [])] } : ApiState).storage = true) ∧
    addressGet ({ cache := [], accountStorage := some ⟨42, 7⟩, storage := true,
                  account := some ⟨42, 7⟩, stores := [(⟨42, 7⟩, [])] } : ApiState)
      = some ⟨69, 7⟩ ∧
    formatAddress ⟨42, 7⟩ false = ⟨42, 7⟩ ∧
    (⟨42, 7⟩ : Address) ≠ (⟨69, 7⟩ : Address) ∧
    alLookup ({ cache := [], accountStorage := some ⟨42, 7⟩, storage := true,
                account := some ⟨42, 7⟩, stores := [(⟨42, 7⟩, [])] } : ApiState).stores ⟨42, 7⟩
      = some [] ∧
    alLookup (saveHistory
        ({ cache := [], accountStorage := some ⟨42, 7⟩, storage := true, account := some ⟨42, 7⟩,
           stores := [(⟨42, 7⟩, [])] } : ApiState)
        (some ({ id := some "x", fromAddress := some ⟨42, 7⟩ } : HistoryItem)) {}).stores ⟨42, 7⟩
      ≠ some [] := by
  exact ⟨rfl, rfl, rfl, by decide, rfl, by decide⟩

/-- C8 (amended): when the record has a `from` address, storage is
available and `toCurrentAccount` was not passed, the merged record is
written to the store keyed by the hash of the no-prefix `from` address;
every store under a *different* key — in particular the active account's
stored history whenever its storage key differs from that hash — and the
in-memory cache are unchanged.  When `toCurrentAccount` is passed, or the
record has no `from` address, the active account's history is the merge
target.  (The no-prefix form of a `from` address never equals the
SORA-prefixed active `address`, so the address comparison of the source
cannot by itself select the active account; the target characterization
goes through `saveTarget`.) -/
theorem c8_save_routing_amended :
    (∀ (st : ApiState) (item : HistoryItem) (opts : SaveHistoryOptions) (i : String) (f : Address),
      item.id = some i → i ≠ "" → item.fromAddress = some f →
      opts.toCurrentAccount = false → st.storage = true →
      addrDiffers (formatAddress f false) (addressGet st) = true →
      saveTarget st item opts = some (formatAddress f false) ∧
      ((alLookup (saveHistory st (some item) opts).stores (formatAddress f false)).bind
          (fun m => alLookup m i))
        = some (mergeSave (alLookup ((alLookup st.stores (formatAddress f false)).getD []) i)
            item opts.wasNotGenerated) ∧
      (∀ k, k ≠ formatAddress f false →
        alLookup (saveHistory st (some item) opts).stores k = alLookup st.stores k) ∧
      (saveHistory st (some item) opts).cache = st.cache) ∧
    (∀ (st : ApiState) (item : HistoryItem) (opts : SaveHistoryOptions),
      opts.toCurrentAccount = true → saveTarget st item opts = none) ∧
    (∀ (st : ApiState) (item : HistoryItem) (opts : SaveHistoryOptions),
      item.fromAddress = none → saveTarget st item opts = none) ∧
    (∀ (st : ApiState) (item : HistoryItem) (opts : SaveHistoryOptions) (i : String),
      item.id = some i → i ≠ "" → saveTarget st item opts = none →
      alLookup (historyValue (saveHistory st (some item) opts)) i =
        some (mergeSave (alLookup (historyValue st) i) item opts.wasNotGenerated)) := by
  refine ⟨?_, ?_, ?_, ?_⟩
  · intro st item opts i f hid hne hfrom hto hstor haddr
    have htgt : saveTarget st item opts = some (formatAddress f false) := by
      simp [saveTarget, hfrom, hto, haddr, hstor]
    refine ⟨htgt, ?_, ?_, ?_⟩
    · simp [saveHistory, hid, hne, htgt, targetMapBefore, alLookup_alSet_self]
    · intro k hk
      simp [saveHistory, hid, hne, htgt, alLookup_alSet_ne _ _ _ _ hk]
    · simp [saveHistory, hid, hne, htgt]
  · intro st item opts hto
    cases hfa : item.fromAddress with
    | none => simp [saveTarget, hfa]
    | some f => simp [saveTarget, hfa, hto]
  · intro st item opts hfa
    simp [saveTarget, hfa]
  · intro st item opts i hid hne htgt
    cases hks : st.accountStorage with
    | some k =>
      simp [saveHistory, hid, hne, htgt, targetMapBefore, historySet, historyValue, hks,
        alLookup_alSet_self]
    | none =>
      simp [saveHistory, hid, hne, htgt, targetMapBefore, historySet, historyValue, hks,
        alLookup_alSet_self]

/-- Witness for C8 at concrete states: a routed save to a distinct
from-address store leaving the active store and cache untouched, the
`toCurrentAccount` and absent-`from` targets, and a merge into the active
history. -/
theorem c8_save_routing_amended_witness :
    saveTarget
        ({ cache := [], accountStorage := some ⟨42, 7⟩, storage := true, account := some ⟨42, 7⟩,
           stores := [] } : ApiState)
        ({ id := some "x", fromAddress := some ⟨42, 9⟩ } : HistoryItem) {} = some ⟨42, 9⟩ ∧
    ((alLookup (saveHistory
        ({ cache := [], accountStorage := some ⟨42, 7⟩, storage := true, account := some ⟨42, 7⟩,
           stores := [] } : ApiState)
        (some ({ id := some "x", fromAddress := some ⟨42, 9⟩ } : HistoryItem)) {}).stores ⟨42, 9⟩).bind
        (fun m => alLookup m "x"))
      = some (mergeSave none { id := some "x", fromAddress := some ⟨42, 9⟩ } false) ∧
    alLookup (saveHistory
        ({ cache := [], accountStorage := some ⟨42, 7⟩, storage := true, account := some ⟨42, 7⟩,
           stores := [] } : ApiState)
        (some ({ id := some "x", fromAddress := some ⟨42, 9⟩ } : HistoryItem)) {}).stores ⟨42, 7⟩ = none ∧
    (saveHistory
        ({ cache := [], accountStorage := some ⟨42, 7⟩, storage := true, account := some ⟨42, 7⟩,
           stores := [] } : ApiState)
        (some ({ id := some "x", fromAddress := some ⟨42, 9⟩ } : HistoryItem)) {}).cache = [] ∧
    saveTarget {} ({ id := some "y", fromAddress := some ⟨42, 9⟩ } : HistoryItem)
      { toCurrentAccount := true } = none ∧
    saveTarget ({ storage := true } : ApiState) ({ id := some "y" } : HistoryItem) {} = none ∧
    alLookup (historyValue (saveHistory {} (some ({ id := some "y" } : HistoryItem)) {})) "y"
      = some (mergeSave none { id := some "y" } false) := by
  have hA := c8_save_routing_amended.1
    { cache := [], accountStorage := some ⟨42, 7⟩, storage := true, account := some ⟨42, 7⟩,
      stores := [] }
    { id := some "x", fromAddress := some ⟨42, 9⟩ } {} "x" ⟨42, 9⟩
    rfl (by decide) rfl rfl rfl (by decide)
  refine ⟨hA.1, ?_, ?_, hA.2.2.2, ?_, ?_, ?_⟩
  · exact hA.2.1
  · exact hA.2.2.1 ⟨42, 7⟩ (by decide)
  · exact c8_save_routing_amended.2.1 {} { id := some "y", fromAddress := some ⟨42, 9⟩ }
      { toCurrentAccount := true } rfl
  · exact c8_save_routing_amended.2.2.1 { storage := true } { id := some "y" } {} rfl
  · exact c8_save_routing_amended.2.2.2 {} { id := some "y" } {} "y" rfl (by decide) rfl
